import Mathlib

/-!
Verification of the PERCo KT02.3 turnstile manager against its specification.

The development shallowly embeds the Python sources:
  * `src/src/data_handler.py` — roster loading and active-card filtering,
  * `src/src/turnstile.py`    — device requests, card provisioning and the
    access-report pipeline of `generate_access_report`,
  * `src/main.py`             — the orchestrator's update phase.

Text processing is modelled over `List Char` (Python `str.split`, `str.strip`,
substring tests and regex digit extraction are re-implemented character by
character); pandas dataframes become lists of records, and the dataframe
stages of `generate_access_report` become the explicit pipeline functions
below, one per source line.  pandas `sort_values` (numpy quicksort, which is
unstable above its small-array cutoff) is modelled by a concrete sorting
algorithm; its tie order is incidental to the model, so the theorems below
state only tie-order-insensitive properties of the sorted output (descending
sortedness and the multiset of rows).  On lists below numpy's cutoff —
where numpy itself runs insertion sort — the model's output coincides with
the program's exactly, which grounds the concrete counterexample input.
Fallible steps return `Except`.
-/

namespace Perco

/-- Python `s.split(sep)` for a one-character separator: no collapsing of
    adjacent separators, and the empty input yields one empty field. -/
def splitChar (sep : Char) : List Char → List (List Char)
  | [] => [[]]
  | c :: t =>
    let r := splitChar sep t
    if c = sep then [] :: r
    else
      match r with
      | [] => [[c]]
      | h :: t2 => (c :: h) :: t2

/-- Python `s.strip()`: drop leading and trailing whitespace. -/
def trimChars (l : List Char) : List Char :=
  ((l.dropWhile Char.isWhitespace).reverse.dropWhile Char.isWhitespace).reverse

/-- Tests whether the pattern is an initial segment of the list. -/
def leadsWith : List Char → List Char → Bool
  | [], _ => true
  | _ :: _, [] => false
  | p :: ps, c :: cs => p == c && leadsWith ps cs

/-- Python `pat in s`: substring containment, as used by the
    `str.contains` filters of `generate_access_report`. -/
def hasSub (pat : List Char) : List Char → Bool
  | [] => leadsWith pat []
  | c :: cs => leadsWith pat (c :: cs) || hasSub pat cs

/-- Numeric value of a digit string (the effect of `pd.to_numeric` on the
    extracted digit run). -/
def digitsVal (l : List Char) : Nat :=
  l.foldl (fun a c => 10 * a + (c.toNat - 48)) 0

/-- The digit-run regex extraction of turnstile.py line 133: the first
    maximal run of digits, numerically parsed; `none` when the string has no
    digit (the row is then dropped by `dropna`). -/
def firstDigitRun (l : List Char) : Option Nat :=
  let r := l.dropWhile (fun c => !c.isDigit)
  match r with
  | [] => none
  | _ :: _ => some (digitsVal (r.takeWhile Char.isDigit))

/-- A `strptime`-style numeric field of one or two digits. -/
def parseField2 (l : List Char) : Option Nat :=
  if l.length = 0 ∨ 2 < l.length then none
  else if l.all Char.isDigit then some (digitsVal l)
  else none

/-- A calendar date, the result of `.dt.date` on the parsed device timestamp. -/
structure EventDate where
  year : Nat
  month : Nat
  day : Nat
deriving DecidableEq

/-- POSIX `%y`: two-digit years 00-68 map into the 2000s, 69-99 into the 1900s. -/
def expandYear (y : Nat) : Nat :=
  if y < 69 then 2000 + y else 1900 + y

def isLeapYear (y : Nat) : Bool :=
  (y % 4 = 0 && y % 100 ≠ 0) || y % 400 = 0

def daysInMonth (y m : Nat) : Nat :=
  if m = 2 then (if isLeapYear y then 29 else 28)
  else if m = 4 ∨ m = 6 ∨ m = 9 ∨ m = 11 then 30
  else 31

/-- Strict timestamp parse of turnstile.py lines 137-138,
    `pd.to_datetime` with format day/month/year time plus `.dt.date`:
    a strict parse of day/month/2-digit-year hour:minute:second,
    `none` on any malformed field. -/
def parseDateTime (l : List Char) : Option EventDate :=
  match splitChar ' ' l with
  | [ds, ts] =>
    match splitChar '/' ds, splitChar ':' ts with
    | [d, m, y], [hh, mi, ss] =>
      match parseField2 d, parseField2 m, parseField2 y,
            parseField2 hh, parseField2 mi, parseField2 ss with
      | some dv, some mv, some yv, some hv, some miv, some sv =>
        let yr := expandYear yv
        if 1 ≤ mv ∧ mv ≤ 12 ∧ 1 ≤ dv ∧ dv ≤ daysInMonth yr mv
            ∧ hv ≤ 23 ∧ miv ≤ 59 ∧ sv ≤ 59 then
          some ⟨yr, mv, dv⟩
        else none
      | _, _, _, _, _, _ => none
    | _, _ => none
  | _ => none

/-- Python `s.lower()` on the ASCII flag values at issue: lowercase every
    character. -/
def lowerAscii (s : String) : String :=
  ⟨s.data.map Char.toLower⟩

/-- One roster row of the cards spreadsheet (data_handler.py).  `Active` is
    the cell after `astype(str)`; `expiration` is the value of
    `pd.to_datetime(cell, errors="coerce")` as a day number, `none` for
    missing or unparseable cells (`NaT`); `rfid` is `none` for a missing
    (`NaN`) cell; `username` is `none` for a missing cell. -/
structure CardRecord where
  rfid : Option Nat
  cardNumber : String
  username : Option String
  active : String
  expiration : Option Int
deriving DecidableEq

/-- The membership test of the boolean mask of data_handler.py lines 29-33:
    lowercased Active equals "true", RFID present, expiration on or after
    today (`NaT` compares false). -/
def activeFilter (today : Int) (r : CardRecord) : Bool :=
  lowerAscii r.active == "true" && r.rfid.isSome &&
    (match r.expiration with
     | some d => today ≤ d
     | none => false)

/-- The core of data_handler.py, returning the full roster and the active
    projection.  The Excel read is the external loader; the roster list
    stands for the loaded frame. -/
def load_and_filter_cards (roster : List CardRecord) (today : Int) :
    List CardRecord × List CardRecord :=
  (roster, roster.filter (activeFilter today))

/-- One tokenized event line: exactly four tab-separated fields
    `(request_number, hash, datetime, description)`; the description column
    is labelled "Card RFID" by turnstile.py line 126. -/
structure RawRow where
  num : List Char
  hsh : List Char
  dt : List Char
  desc : List Char
deriving DecidableEq

/-- Lines 118-119 of turnstile.py: strip the raw response, split on
    newlines, split each line on tabs, keep exactly-4-field lines. -/
def tokenize (raw : List Char) : List RawRow :=
  (splitChar '\n' (trimChars raw)).filterMap fun line =>
    match splitChar '\t' line with
    | [a, b, c, d] => some ⟨a, b, c, d⟩
    | _ => none

def notRegisteredPat : List Char := "Card is not registered".toList

def byCardPat : List Char := "by card".toList

/-- Lines 131-135 of turnstile.py: drop rows whose description contains
    "Card is not registered", keep rows containing "by card", extract the
    first digit run as the numeric rfid, drop rows with no digits.  The
    result pairs each surviving rfid with its raw datetime field.  (The
    `dropna` of line 129 is a no-op: all fields come from string splits.) -/
def classify (rows : List RawRow) : List (Nat × List Char) :=
  ((rows.filter fun r => !hasSub notRegisteredPat r.desc).filter
      fun r => hasSub byCardPat r.desc).filterMap
    fun r => (firstDigitRun r.desc).map fun n => (n, r.dt)

/-- Lines 137-138 of turnstile.py: strict datetime normalization of every
    surviving row; a single malformed timestamp fails the whole column
    conversion (`pd.to_datetime` raises), modelled as `Except.error`. -/
def normalizeEvents : List (Nat × List Char) → Except Unit (List (Nat × EventDate))
  | [] => .ok []
  | p :: l =>
    match parseDateTime p.2 with
    | none => .error ()
    | some d =>
      match normalizeEvents l with
      | .error e => .error e
      | .ok rest => .ok ((p.1, d) :: rest)

/-- Worker for `dedupF`: drop elements seen before, in one left-to-right
    pass. -/
def dedupAux {α : Type} [DecidableEq α] (seen : List α) : List α → List α
  | [] => []
  | a :: l => if a ∈ seen then dedupAux seen l else a :: dedupAux (a :: seen) l

/-- pandas `drop_duplicates` (line 140): keep the first occurrence of each
    value, erase later duplicates. -/
def dedupF {α : Type} [DecidableEq α] (l : List α) : List α :=
  dedupAux [] l

/-- The roster rows matching an rfid key, in roster order (the right side of
    a pandas merge on "Card RFID"). -/
def matchCards (cards : List CardRecord) (n : Nat) : List CardRecord :=
  cards.filter fun c => c.rfid = some n

/-- Lines 142-143 of turnstile.py: left-merge events with the full roster on
    "Card RFID", then `dropna(subset=["Username"])` — which removes exactly
    the rows with no roster match and the matches whose username is missing. -/
def joinRoster (evs : List (Nat × EventDate)) (cards : List CardRecord) :
    List (Nat × EventDate × CardRecord) :=
  evs.flatMap fun e =>
    ((matchCards cards e.1).filter fun c => c.username.isSome).map
      fun c => (e.1, e.2, c)

/-- The group keys of `df.groupby("Card RFID")` (line 145): the distinct
    rfids, sorted ascending (pandas groupby sorts keys by default). -/
def groupKeys (joined : List (Nat × EventDate × CardRecord)) : List Nat :=
  List.insertionSort (· ≤ ·) (dedupF (joined.map fun t => t.1))

/-- `nunique` of the Date column within one rfid group (line 145). -/
def nuniqueDates (joined : List (Nat × EventDate × CardRecord)) (n : Nat) : Nat :=
  (dedupF ((joined.filter fun t => t.1 = n).map fun t => t.2.1)).length

/-- Lines 145-146 of turnstile.py: per-rfid distinct-date counts, one row
    per group key in groupby (ascending key) order. -/
def aggregate (joined : List (Nat × EventDate × CardRecord)) : List (Nat × Nat) :=
  (groupKeys joined).map fun n => (n, nuniqueDates joined n)

/-- One row of the final report frame: the rfid key, its UniqueEntryDays
    count, and the merged roster fields (`none` when the left merge of line
    147 found no roster match and filled NaN). -/
structure ReportRow where
  rfid : Nat
  days : Nat
  card : Option CardRecord
deriving DecidableEq

/-- The merge result for one aggregated (rfid, count) row: one output row
    per matching roster row, or a single NaN-filled row when the rfid has
    no roster match. -/
def enrichBlock (cards : List CardRecord) (p : Nat × Nat) : List ReportRow :=
  if (matchCards cards p.1).isEmpty then [⟨p.1, p.2, none⟩]
  else (matchCards cards p.1).map fun c => ⟨p.1, p.2, some c⟩

/-- Line 147 of turnstile.py: left-merge the counts back onto the full
    roster. -/
def enrich (counts : List (Nat × Nat)) (cards : List CardRecord) : List ReportRow :=
  counts.flatMap (enrichBlock cards)

/-- The descending comparison used by the final sort: row `a` may precede
    row `b` when its UniqueEntryDays count is at least as large. -/
def daysGE (a b : ReportRow) : Prop := b.days ≤ a.days

instance : DecidableRel daysGE := fun a b => inferInstanceAs (Decidable (b.days ≤ a.days))

instance : IsTotal ReportRow daysGE :=
  ⟨fun a b => Nat.le_total b.days a.days⟩

instance : IsTrans ReportRow daysGE :=
  ⟨fun _ _ _ hab hbc => le_trans hbc hab⟩

/-- Line 148 of turnstile.py: `sort_values(by="UniqueEntryDays",
    ascending=False)`.  pandas' default quicksort is unstable above numpy's
    small-array insertion-sort cutoff, so the relative order of equal-count
    rows is implementation-defined; the model uses one concrete sorting
    algorithm and no theorem relies on the tie order it happens to produce —
    only descending sortedness and the multiset of rows are stated.  Below
    the cutoff numpy runs insertion sort, so on such inputs (in particular
    the two-row counterexample input) the model's output order coincides
    with the program's. -/
def sortReport (l : List ReportRow) : List ReportRow :=
  List.insertionSort daysGE l

/-- Outcome of one `generate_access_report` call: `file` is the written
    report's rows (`none` when no file was written), `ret` is the Python
    return value — the source returns bare `None` on the empty branch (line
    123) and falls off the end after writing (line 155), so `ret` is `none`
    on both paths. -/
structure ReportOutcome where
  file : Option (List ReportRow)
  ret : Option String
deriving DecidableEq

/-- `TurnstileManager.generate_access_report` (turnstile.py lines 106-155)
    applied to the fetched event text and the full roster: tokenize, check
    the no-data short-circuit, classify, normalize datetimes (any failure
    raises), deduplicate (rfid, date) rows, join the roster, aggregate,
    enrich, sort, and write. -/
def generate_access_report (raw : List Char) (cards : List CardRecord) :
    Except Unit ReportOutcome :=
  let data := tokenize raw
  if data.isEmpty then .ok ⟨none, none⟩
  else
    match normalizeEvents (classify data) with
    | .error e => .error e
    | .ok evs =>
      .ok ⟨some (sortReport (enrich (aggregate (joinRoster (dedupF evs) cards)) cards)),
           none⟩

/-- A device API call: the endpoint path and the value of the `req` query
    parameter (empty when no parameters are passed). -/
structure DevRequest where
  endpoint : String
  reqParam : String
deriving DecidableEq

/-- The add-card request of turnstile.py lines 98-99: endpoint
    `/cgi/card_edit` with parameter `1+1+` followed by the rfid. -/
def cardEditRequest (rfid : Nat) : DevRequest :=
  ⟨"/cgi/card_edit", "1+1+" ++ toString rfid⟩

/-- The backup request of turnstile.py line 62. -/
def backupRequest : DevRequest :=
  ⟨"/cgi/card_get_list", ""⟩

/-- Modelled from the spec: the single wipe-all-cards device command issued
    by `clear_all_cards`, whose definition is missing from the provided
    sources (main.py line 86 calls it; the spec section 4.4 describes it).
    The concrete endpoint string is unspecified; the claims depend only on
    it being a single device command distinct from backup and card-edit. -/
def clearAllCardsRequest : DevRequest :=
  ⟨"/cgi/clear_all_cards", ""⟩

/-- `TurnstileManager.update_turnstile_cards` (turnstile.py lines 77-104):
    iterate the active roster in order, issue one card-edit request per
    record; a failed request raises out of the loop immediately.  `respond`
    is the device; the result pairs the trace of issued requests with the
    outcome.  (A missing rfid cell cannot reach this loop: the active view
    filters on `rfid.isSome`; `getD` only totalizes the model.) -/
def update_turnstile_cards (respond : DevRequest → Except Unit String) :
    List CardRecord → List DevRequest × Except Unit Unit
  | [] => ([], .ok ())
  | r :: rest =>
    let q := cardEditRequest (r.rfid.getD 0)
    match respond q with
    | .error e => ([q], .error e)
    | .ok _ =>
      (q :: (update_turnstile_cards respond rest).1,
       (update_turnstile_cards respond rest).2)

/-- Modelled from the spec: `clear_all_cards` "issues a single device
    command to wipe all stored cards"; its failure propagates (aborts the
    run).  The definition is absent from the provided sources. -/
def clear_all_cards (respond : DevRequest → Except Unit String) :
    List DevRequest × Except Unit Unit :=
  ([clearAllCardsRequest],
   match respond clearAllCardsRequest with
   | .error e => .error e
   | .ok _ => .ok ())

/-- The update phase of the orchestrator (main.py lines 81-89): download the
    backup, then clear all cards unless the skip flag is set, then provision
    the active roster; any raised error aborts the phase. -/
def runUpdatePhase (respond : DevRequest → Except Unit String)
    (skipClearAll : Bool) (active : List CardRecord) :
    List DevRequest × Except Unit Unit :=
  match respond backupRequest with
  | .error e => ([backupRequest], .error e)
  | .ok _ =>
    if skipClearAll then
      (backupRequest :: (update_turnstile_cards respond active).1,
       (update_turnstile_cards respond active).2)
    else
      match (clear_all_cards respond).2 with
      | .error e => (backupRequest :: (clear_all_cards respond).1, .error e)
      | .ok _ =>
        ((backupRequest :: (clear_all_cards respond).1) ++
           (update_turnstile_cards respond active).1,
         (update_turnstile_cards respond active).2)

/-! ### Derived notions and concrete instances used by the claims -/

instance {ε α : Type} [DecidableEq ε] [DecidableEq α] : DecidableEq (Except ε α) :=
  fun a b =>
    match a, b with
    | .ok x, .ok y =>
      if h : x = y then isTrue (by rw [h]) else isFalse fun hc => h (Except.ok.inj hc)
    | .error x, .error y =>
      if h : x = y then isTrue (by rw [h]) else isFalse fun hc => h (Except.error.inj hc)
    | .ok _, .error _ => isFalse fun hc => Except.noConfusion hc
    | .error _, .ok _ => isFalse fun hc => Except.noConfusion hc

/-- The number of distinct calendar dates among an rfid's events. -/
def distinctDates (evs : List (Nat × EventDate)) (n : Nat) : Nat :=
  (dedupF ((evs.filter fun e => e.1 = n).map fun e => e.2)).length

/-- Position of an rfid in the roster (index of its first matching record). -/
def rosterPos (cards : List CardRecord) (n : Nat) : Nat :=
  cards.findIdx fun c => c.rfid = some n

/-- The return-value half of the spec contract for `buildReport`: whenever a
    report file is written, the file path is returned. -/
def returnsPathContract (raw : List Char) (cards : List CardRecord) : Prop :=
  ∀ o, generate_access_report raw cards = .ok o → o.file.isSome = true → o.ret.isSome = true

/-- The tie-break clause of the spec's sort contract: rows with equal
    UniqueEntryDays appear in original roster order. -/
def tiesFollowRosterOrder (raw : List Char) (cards : List CardRecord) : Prop :=
  ∀ o rows, generate_access_report raw cards = .ok o → o.file = some rows →
    rows.Pairwise fun a b => a.days = b.days → rosterPos cards a.rfid ≤ rosterPos cards b.rfid

/-- Event text of the spec's tokenizer test: one well-formed entry line and
    one malformed two-field line. -/
def c5raw : String := "1\th1\t01/02/24 10:00:00\tEntered by card 00123\nbad\tline"

/-- A roster record for rfid 123. -/
def cardA : CardRecord := ⟨some 123, "0042", some "alice", "True", some 0⟩

/-- An event line that survives classification but carries a malformed
    timestamp. -/
def c7raw : String := "1\th\tBADTIME\tEntered by card 9"

/-- A well-formed 4-field line whose description is not an entry-by-card
    event: it tokenizes but is dropped by classification. -/
def c10raw : String := "a\tb\tc\td"

/-- A tokenized line marked not-registered, containing digits. -/
def rowNotReg : RawRow :=
  ⟨"1".toList, "h".toList, "01/02/24 10:00:00".toList,
   "Card is not registered 00456".toList⟩

/-- Roster records for rfids 200 and 100, listed in that (descending) order. -/
def card200 : CardRecord := ⟨some 200, "c2", some "bob", "True", some 0⟩

def card100 : CardRecord := ⟨some 100, "c1", some "alice", "True", some 0⟩

/-- Event text with one same-day entry for each of rfids 100 and 200. -/
def c3raw : String :=
  "1\th\t01/02/24 10:00:00\tEntered by card 100\n2\th\t01/02/24 10:01:00\tEntered by card 200"

/-- Five active roster records with rfids 1 to 5. -/
def cards5 : List CardRecord :=
  [⟨some 1, "", none, "", none⟩, ⟨some 2, "", none, "", none⟩,
   ⟨some 3, "", none, "", none⟩, ⟨some 4, "", none, "", none⟩,
   ⟨some 5, "", none, "", none⟩]

/-- A device that rejects the card-edit request for rfid 3 and accepts
    everything else. -/
def respondFailAt3 : DevRequest → Except Unit String :=
  fun q => if q = cardEditRequest 3 then .error () else .ok ""

/-- A device that rejects the wipe-all-cards command and accepts everything
    else. -/
def respondClearFails : DevRequest → Except Unit String :=
  fun q => if q = clearAllCardsRequest then .error () else .ok ""

/-- The event rows of the spec's aggregation test: rfid 123 on three
    distinct dates, with two duplicated same-date rows. -/
def evs6 : List (Nat × EventDate) :=
  [(123, ⟨2024, 1, 1⟩), (123, ⟨2024, 1, 1⟩), (123, ⟨2024, 1, 2⟩),
   (123, ⟨2024, 1, 3⟩), (123, ⟨2024, 1, 3⟩)]

/-! ### Basic lemmas about the pipeline stages -/

theorem mem_dedupAux {α : Type} [DecidableEq α] {x : α} :
    ∀ {l seen : List α}, x ∈ dedupAux seen l ↔ x ∈ l ∧ x ∉ seen := by
  intro l
  induction l with
  | nil => intro seen; simp [dedupAux]
  | cons a l ih =>
    intro seen
    rw [dedupAux]
    by_cases ha : a ∈ seen
    · rw [if_pos ha, ih]
      simp only [List.mem_cons]
      constructor
      · rintro ⟨h1, h2⟩
        exact ⟨Or.inr h1, h2⟩
      · rintro ⟨h1 | h1, h2⟩
        · subst h1; exact absurd ha h2
        · exact ⟨h1, h2⟩
    · rw [if_neg ha]
      simp only [List.mem_cons, ih, List.mem_cons]
      constructor
      · rintro (rfl | ⟨h1, h2⟩)
        · exact ⟨Or.inl rfl, ha⟩
        · exact ⟨Or.inr h1, fun hc => h2 (Or.inr hc)⟩
      · rintro ⟨h1 | h1, h2⟩
        · exact Or.inl h1
        · by_cases hx : x = a
          · exact Or.inl hx
          · exact Or.inr ⟨h1, fun hc => (by rcases hc with hc | hc; exact hx hc; exact h2 hc)⟩

theorem mem_dedupF {α : Type} [DecidableEq α] {x : α} {l : List α} :
    x ∈ dedupF l ↔ x ∈ l := by
  rw [dedupF, mem_dedupAux]
  simp

theorem nodup_dedupAux {α : Type} [DecidableEq α] :
    ∀ (l seen : List α), (dedupAux seen l).Nodup := by
  intro l
  induction l with
  | nil => intro seen; simp [dedupAux]
  | cons a l ih =>
    intro seen
    rw [dedupAux]
    by_cases ha : a ∈ seen
    · rw [if_pos ha]; exact ih seen
    · rw [if_neg ha]
      refine List.Nodup.cons ?_ (ih (a :: seen))
      intro hmem
      rw [mem_dedupAux] at hmem
      exact hmem.2 (List.mem_cons_self a seen)

theorem nodup_dedupF {α : Type} [DecidableEq α] (l : List α) : (dedupF l).Nodup :=
  nodup_dedupAux l []

theorem length_dedupAux {α : Type} [DecidableEq α] :
    ∀ (l seen : List α),
      (dedupAux seen l).length = (l.toFinset \ seen.toFinset).card := by
  intro l
  induction l with
  | nil => intro seen; simp [dedupAux]
  | cons a l ih =>
    intro seen
    rw [dedupAux, List.toFinset_cons]
    by_cases ha : a ∈ seen
    · rw [if_pos ha, ih]
      congr 1
      rw [Finset.insert_sdiff_of_mem]
      simpa using ha
    · rw [if_neg ha, List.length_cons, ih, List.toFinset_cons]
      have h1 : insert a l.toFinset \ seen.toFinset =
          insert a (l.toFinset \ seen.toFinset) := by
        rw [Finset.insert_sdiff_of_not_mem]
        simpa using ha
      have h2 : l.toFinset \ insert a seen.toFinset =
          (l.toFinset \ seen.toFinset).erase a := by
        ext x
        simp only [Finset.mem_sdiff, Finset.mem_insert, Finset.mem_erase]
        tauto
      rw [h1, h2]
      by_cases hmem : a ∈ l.toFinset \ seen.toFinset
      · rw [Finset.insert_eq_self.mpr hmem, Finset.card_erase_of_mem hmem]
        have hpos : 0 < (l.toFinset \ seen.toFinset).card :=
          Finset.card_pos.mpr ⟨a, hmem⟩
        omega
      · rw [Finset.card_insert_of_not_mem hmem, Finset.erase_eq_of_not_mem hmem]

/-- The deduplicated length is the number of distinct elements. -/
theorem length_dedupF {α : Type} [DecidableEq α] (l : List α) :
    (dedupF l).length = l.toFinset.card := by
  rw [dedupF, length_dedupAux]
  simp

theorem dedupF_length_congr {α : Type} [DecidableEq α] {l₁ l₂ : List α}
    (h : l₁.toFinset = l₂.toFinset) : (dedupF l₁).length = (dedupF l₂).length := by
  rw [length_dedupF, length_dedupF, h]

theorem dedupAux_append_self {α : Type} [DecidableEq α] :
    ∀ (l seen : List α) (e : α), e ∈ l ∨ e ∈ seen →
      dedupAux seen (l ++ [e]) = dedupAux seen l := by
  intro l
  induction l with
  | nil =>
    intro seen e he
    rcases he with he | he
    · simp at he
    · simp [dedupAux, he]
  | cons a l ih =>
    intro seen e he
    rw [List.cons_append, dedupAux, dedupAux]
    by_cases ha : a ∈ seen
    · rw [if_pos ha, if_pos ha, ih]
      rcases he with he | he
      · rcases List.mem_cons.mp he with rfl | he2
        · exact Or.inr ha
        · exact Or.inl he2
      · exact Or.inr he
    · rw [if_neg ha, if_neg ha, ih]
      rcases he with he | he
      · rcases List.mem_cons.mp he with rfl | he2
        · exact Or.inr (List.mem_cons_self e seen)
        · exact Or.inl he2
      · exact Or.inr (List.mem_cons_of_mem a he)

/-- Appending a row already present does not change the deduplicated list:
    exact duplicates collapse. -/
theorem dedupF_append_self {α : Type} [DecidableEq α] (l : List α) (e : α)
    (he : e ∈ l) : dedupF (l ++ [e]) = dedupF l :=
  dedupAux_append_self l [] e (Or.inl he)

/-- A single surviving row with a malformed timestamp fails the whole
    datetime conversion. -/
theorem normalizeEvents_error_of_mem {p : Nat × List Char} :
    ∀ {l}, p ∈ l → parseDateTime p.2 = none → normalizeEvents l = .error () := by
  intro l
  induction l with
  | nil => intro h; simp at h
  | cons q l ih =>
    intro hmem hnone
    cases hq : parseDateTime q.2 with
    | none => simp [normalizeEvents, hq]
    | some d =>
      rcases List.mem_cons.mp hmem with rfl | hmem2
      · rw [hq] at hnone
        cases hnone
      · have htail := ih hmem2 hnone
        simp [normalizeEvents, hq, htail]

/-- Every request issued by the provisioning loop targets the card-edit
    endpoint. -/
theorem update_trace_endpoints (respond : DevRequest → Except Unit String) :
    ∀ (cards : List CardRecord),
      ∀ q ∈ (update_turnstile_cards respond cards).1, q.endpoint = "/cgi/card_edit" := by
  intro cards
  induction cards with
  | nil => intro q hq; simp [update_turnstile_cards] at hq
  | cons c rest ih =>
    intro q hq
    rw [update_turnstile_cards] at hq
    cases hresp : respond (cardEditRequest (c.rfid.getD 0)) with
    | error e =>
      rw [hresp] at hq
      simp only [List.mem_singleton] at hq
      subst hq
      rfl
    | ok s =>
      rw [hresp] at hq
      simp only [List.mem_cons] at hq
      rcases hq with rfl | hq
      · rfl
      · exact ih q hq

/-! ### Lemmas about the join and the aggregation -/

/-- Membership in the merged-and-username-filtered frame. -/
theorem mem_joinRoster {n : Nat} {d : EventDate} {crec : CardRecord}
    {evs : List (Nat × EventDate)} {cards : List CardRecord} :
    (n, d, crec) ∈ joinRoster evs cards ↔
      (n, d) ∈ evs ∧ crec ∈ cards ∧ crec.rfid = some n ∧ crec.username.isSome = true := by
  rw [joinRoster]
  simp only [List.mem_flatMap, List.mem_map, List.mem_filter, matchCards,
    Prod.mk.injEq, decide_eq_true_eq]
  constructor
  · rintro ⟨⟨m, d2⟩, hev, c2, ⟨⟨hc2, hrf⟩, hun⟩, hn, hd, hc⟩
    subst hn; subst hd; subst hc
    exact ⟨hev, hc2, hrf, hun⟩
  · rintro ⟨hev, hc2, hrf, hun⟩
    exact ⟨(n, d), hev, crec, ⟨⟨hc2, hrf⟩, hun⟩, rfl, rfl, rfl⟩

theorem mem_groupKeys {n : Nat} {joined : List (Nat × EventDate × CardRecord)} :
    n ∈ groupKeys joined ↔ ∃ t ∈ joined, t.1 = n := by
  rw [groupKeys, List.mem_insertionSort, mem_dedupF]
  simp [List.mem_map]

theorem mem_aggregate {n c : Nat} {joined : List (Nat × EventDate × CardRecord)}
    (h : (n, c) ∈ aggregate joined) :
    n ∈ groupKeys joined ∧ c = nuniqueDates joined n := by
  rw [aggregate, List.mem_map] at h
  obtain ⟨k, hk, heq⟩ := h
  obtain ⟨h1, h2⟩ := Prod.mk.injEq .. ▸ heq
  subst h1
  exact ⟨hk, h2.symm⟩

/-- The dates appearing in an rfid's group of the joined frame. -/
theorem dates_of_join_mem {d : EventDate} {n : Nat}
    {E : List (Nat × EventDate)} {cards : List CardRecord} :
    d ∈ ((joinRoster E cards).filter fun t => t.1 = n).map (fun t => t.2.1) ↔
      (n, d) ∈ E ∧ ∃ crec ∈ cards, crec.rfid = some n ∧ crec.username.isSome = true := by
  rw [List.mem_map]
  constructor
  · rintro ⟨⟨m, d2, crec⟩, ht, hd⟩
    rw [List.mem_filter] at ht
    obtain ⟨hj, hmn⟩ := ht
    simp only [decide_eq_true_eq] at hmn
    subst hmn
    simp only at hd
    subst hd
    rw [mem_joinRoster] at hj
    exact ⟨hj.1, crec, hj.2.1, hj.2.2.1, hj.2.2.2⟩
  · rintro ⟨hev, crec, hc, hrf, hun⟩
    refine ⟨(n, d, crec), ?_, rfl⟩
    rw [List.mem_filter]
    exact ⟨mem_joinRoster.mpr ⟨hev, hc, hrf, hun⟩, by simp⟩

/-- The dates appearing in an rfid's rows of an event list. -/
theorem filter_dates_mem {d : EventDate} {n : Nat} {E : List (Nat × EventDate)} :
    d ∈ (E.filter fun e => e.1 = n).map (fun e => e.2) ↔ (n, d) ∈ E := by
  rw [List.mem_map]
  constructor
  · rintro ⟨⟨m, d2⟩, he, hd⟩
    rw [List.mem_filter] at he
    simp only [decide_eq_true_eq] at he
    obtain ⟨he1, he2⟩ := he
    subst he2
    simp only at hd
    subst hd
    exact he1
  · intro he
    exact ⟨(n, d), by rw [List.mem_filter]; exact ⟨he, by simp⟩, rfl⟩

/-- For an rfid that has a username-bearing roster match, the per-group
    distinct-date count over the deduplicated, joined frame equals the
    distinct-date count over the raw events. -/
theorem nunique_eq_distinct {n : Nat}
    {evs : List (Nat × EventDate)} {cards : List CardRecord}
    (hc : ∃ crec ∈ cards, crec.rfid = some n ∧ crec.username.isSome = true) :
    nuniqueDates (joinRoster (dedupF evs) cards) n = distinctDates evs n := by
  rw [nuniqueDates, distinctDates]
  apply dedupF_length_congr
  ext d
  simp only [List.mem_toFinset]
  rw [dates_of_join_mem, filter_dates_mem, mem_dedupF]
  constructor
  · rintro ⟨h, _⟩
    exact h
  · intro h
    exact ⟨h, hc⟩

/-! ### Claim theorems -/

/-- C4: a roster record is in the active view iff its (lowercased) active
    flag is "true", its rfid is present and its expiration date is today or
    later; expiration equal to today is included (the boundary counts as
    active) and expiration equal to today minus one day is excluded. -/
theorem active_view_membership (today : Int) (roster : List CardRecord) (r : CardRecord) :
    (r ∈ (load_and_filter_cards roster today).2 ↔
       r ∈ roster ∧ lowerAscii r.active = "true" ∧ r.rfid.isSome = true ∧
         ∃ d, r.expiration = some d ∧ today ≤ d)
    ∧ (r ∈ roster → lowerAscii r.active = "true" → r.rfid.isSome = true →
        r.expiration = some today → r ∈ (load_and_filter_cards roster today).2)
    ∧ (r.expiration = some (today - 1) → r ∉ (load_and_filter_cards roster today).2) := by
  have hiff : r ∈ (load_and_filter_cards roster today).2 ↔
      r ∈ roster ∧ lowerAscii r.active = "true" ∧ r.rfid.isSome = true ∧
        ∃ d, r.expiration = some d ∧ today ≤ d := by
    rw [load_and_filter_cards]
    simp only [List.mem_filter, activeFilter, Bool.and_eq_true, beq_iff_eq]
    constructor
    · rintro ⟨hm, ⟨hact, hrf⟩, hexp⟩
      refine ⟨hm, hact, hrf, ?_⟩
      cases he : r.expiration with
      | none => rw [he] at hexp; simp at hexp
      | some d => rw [he] at hexp; exact ⟨d, rfl, by simpa using hexp⟩
    · rintro ⟨hm, hact, hrf, d, hd, hled⟩
      refine ⟨hm, ⟨hact, hrf⟩, ?_⟩
      rw [hd]
      simpa using hled
  refine ⟨hiff, ?_, ?_⟩
  · intro hm hact hrf hexp
    exact hiff.mpr ⟨hm, hact, hrf, today, hexp, le_refl _⟩
  · intro hexp hmem
    obtain ⟨_, _, _, d, hd, hled⟩ := hiff.mp hmem
    rw [hexp] at hd
    have : d = today - 1 := by injection hd.symm
    omega

/-- Witness for C4 at today = 0: a record expiring today is included, a
    record expiring yesterday is excluded. -/
theorem active_view_membership_witness :
    cardA ∈ (load_and_filter_cards [cardA, ⟨some 9, "x", some "u", "True", some (-1)⟩] 0).2
    ∧ (⟨some 9, "x", some "u", "True", some (-1)⟩ : CardRecord) ∉
        (load_and_filter_cards [cardA, ⟨some 9, "x", some "u", "True", some (-1)⟩] 0).2 :=
  ⟨(active_view_membership 0 _ cardA).2.1 (by decide) (by decide) (by decide) (by decide),
   (active_view_membership 0 [cardA, ⟨some 9, "x", some "u", "True", some (-1)⟩] _).2.2
     (by decide)⟩

/-- C9: the full view is the unmodified source roster (deriving the views
    mutates nothing), the active view is a subset of the full view, and —
    both views being pure functions of the roster and of today — the
    filtering is deterministic. -/
theorem active_subset_full (roster : List CardRecord) (today : Int) :
    (load_and_filter_cards roster today).1 = roster
    ∧ ∀ r ∈ (load_and_filter_cards roster today).2,
        r ∈ (load_and_filter_cards roster today).1 := by
  refine ⟨rfl, ?_⟩
  intro r hr
  exact List.mem_of_mem_filter hr

/-- Witness for C9: at a concrete roster the full view is the roster itself
    and the active record is in it. -/
theorem active_subset_full_witness :
    (load_and_filter_cards [cardA] 0).1 = [cardA]
    ∧ cardA ∈ (load_and_filter_cards [cardA] 0).1 :=
  ⟨(active_subset_full [cardA] 0).1,
   (active_subset_full [cardA] 0).2 cardA (by decide)⟩

/-- C5: of the two lines of `c5raw` only the first (well-formed, 4-field)
    one yields an access event, with rfid 123 extracted as the first digit
    run and numerically parsed; and a row whose description contains
    "Card is not registered" never yields an event, digits notwithstanding. -/
theorem event_classification :
    normalizeEvents (classify (tokenize c5raw.toList)) = .ok [(123, ⟨2024, 2, 1⟩)]
    ∧ ∀ r : RawRow, hasSub notRegisteredPat r.desc = true → classify [r] = [] := by
  constructor
  · rfl
  · intro r h
    simp [classify, h]

/-- Witness for C5: the not-registered row with digits 00456 satisfies the
    hypothesis and produces no event. -/
theorem event_classification_witness :
    hasSub notRegisteredPat rowNotReg.desc = true ∧ classify [rowNotReg] = [] :=
  ⟨by decide, event_classification.2 rowNotReg (by decide)⟩

/-- C7: datetime normalization is strict with no per-row recovery — if any
    row that survives classification has a timestamp that does not parse as
    day/month/2-digit-year time, the whole report build fails and no file
    outcome is produced. -/
theorem strict_datetime_aborts (raw : List Char) (cards : List CardRecord)
    (p : Nat × List Char) (hp : p ∈ classify (tokenize raw))
    (hbad : parseDateTime p.2 = none) :
    generate_access_report raw cards = .error () := by
  have hne : (tokenize raw).isEmpty = false := by
    cases h0 : tokenize raw with
    | nil => rw [h0] at hp; simp [classify] at hp
    | cons a l => rfl
  have herr := normalizeEvents_error_of_mem hp hbad
  rw [generate_access_report]
  simp only [hne, Bool.false_eq_true, if_false, herr]

/-- Witness for C7: a classified row with timestamp "BADTIME" aborts the
    build. -/
theorem strict_datetime_aborts_witness :
    generate_access_report c7raw.toList [cardA] = .error () :=
  strict_datetime_aborts c7raw.toList [cardA] (9, "BADTIME".toList) (by decide) (by decide)

/-- C10: when tokenization yields at least one 4-field line, the build does
    not short-circuit even if classification and the roster join drop every
    row: a report file with zero data rows is still written. -/
theorem report_written_when_rows_all_dropped (raw : List Char) (cards : List CardRecord)
    (evs : List (Nat × EventDate))
    (hne : tokenize raw ≠ [])
    (hok : normalizeEvents (classify (tokenize raw)) = .ok evs)
    (hjoin : joinRoster (dedupF evs) cards = []) :
    generate_access_report raw cards = .ok ⟨some [], none⟩ := by
  have hne2 : (tokenize raw).isEmpty = false := by
    cases h0 : tokenize raw with
    | nil => exact absurd h0 hne
    | cons a l => rfl
  rw [generate_access_report]
  simp only [hne2, Bool.false_eq_true, if_false, hok]
  rw [hjoin]
  rfl

/-- Witness for C10: a line whose description is not an entry event
    tokenizes but yields an empty join, and a file with zero rows is still
    written. -/
theorem report_written_when_rows_all_dropped_witness :
    generate_access_report c10raw.toList [cardA] = .ok ⟨some [], none⟩ :=
  report_written_when_rows_all_dropped c10raw.toList [cardA] []
    (by decide) (by decide) (by decide)

/-- C8: the provisioner walks the active roster in order issuing one
    card-edit request per record with parameter `1+1+` rfid; when the
    request for the record at index i fails, the trace contains exactly the
    requests for records 0..i (earlier ones already sent, later ones never
    attempted) and the error propagates to the caller. -/
theorem provision_failfast (respond : DevRequest → Except Unit String) :
    ∀ (cards : List CardRecord) (i : Nat) (hi : i < cards.length),
      (∀ q ∈ (cards.take i).map (fun r => cardEditRequest (r.rfid.getD 0)),
        respond q ≠ .error ()) →
      respond (cardEditRequest ((cards.get ⟨i, hi⟩).rfid.getD 0)) = .error () →
      update_turnstile_cards respond cards =
        ((cards.take (i + 1)).map fun r => cardEditRequest (r.rfid.getD 0), .error ()) := by
  intro cards
  induction cards with
  | nil => intro i hi; exact absurd hi (by simp)
  | cons c rest ih =>
    intro i hi hok hfail
    cases i with
    | zero =>
      rw [update_turnstile_cards]
      rw [show ((c :: rest).get ⟨0, hi⟩) = c from rfl] at hfail
      rw [hfail]
      rfl
    | succ i =>
      have hhead : respond (cardEditRequest (c.rfid.getD 0)) ≠ .error () := by
        refine hok _ ?_
        simp [List.take_succ_cons]
      rw [update_turnstile_cards]
      cases hresp : respond (cardEditRequest (c.rfid.getD 0)) with
      | error e => exact absurd (by rw [hresp]) hhead
      | ok s =>
        have hrest := ih i (Nat.lt_of_succ_lt_succ hi)
          (fun q hq => hok q (by
            simp only [List.take_succ_cons, List.map_cons, List.mem_cons]
            exact Or.inr hq))
          (by simpa using hfail)
        rw [hrest]
        rfl

/-- Witness for C8: with five records and the device failing on rfid 3
    (record index 2), exactly the first three card-edit requests are in the
    trace and the error is surfaced. -/
theorem provision_failfast_witness :
    update_turnstile_cards respondFailAt3 cards5 =
      ((cards5.take 3).map fun r => cardEditRequest (r.rfid.getD 0), .error ()) :=
  provision_failfast respondFailAt3 cards5 2 (by decide) (by decide) (by decide)

/-- C1: `clear_all_cards` issues exactly one device command (the wipe-all
    request); the orchestrator's update phase invokes it after the backup
    and before provisioning unless the skip flag is set, and a failure of
    the wipe command aborts the phase with no provisioning request issued. -/
theorem clear_then_provision (respond : DevRequest → Except Unit String)
    (active : List CardRecord) :
    (clear_all_cards respond).1 = [clearAllCardsRequest]
    ∧ (respond backupRequest ≠ .error () → respond clearAllCardsRequest = .error () →
        runUpdatePhase respond false active = ([backupRequest, clearAllCardsRequest], .error ()))
    ∧ (respond backupRequest ≠ .error () → respond clearAllCardsRequest ≠ .error () →
        runUpdatePhase respond false active =
          (backupRequest :: clearAllCardsRequest ::
             (update_turnstile_cards respond active).1,
           (update_turnstile_cards respond active).2))
    ∧ (∀ q ∈ (runUpdatePhase respond true active).1, q ≠ clearAllCardsRequest) := by
  refine ⟨rfl, ?_, ?_, ?_⟩
  · intro hb hc
    cases hbr : respond backupRequest with
    | error e => exact absurd (by rw [hbr]) hb
    | ok s =>
      rw [runUpdatePhase, hbr]
      have hcl : (clear_all_cards respond).2 = .error () := by
        rw [clear_all_cards, hc]
      simp only [if_neg (by simp : ¬ (false = true))]
      rw [hcl]
      rfl
  · intro hb hc
    cases hbr : respond backupRequest with
    | error e => exact absurd (by rw [hbr]) hb
    | ok s =>
      cases hcr : respond clearAllCardsRequest with
      | error e => exact absurd (by rw [hcr]) hc
      | ok s2 =>
        rw [runUpdatePhase, hbr]
        have hcl : (clear_all_cards respond).2 = .ok () := by
          rw [clear_all_cards, hcr]
        simp only [if_neg (by simp : ¬ (false = true))]
        rw [hcl]
        rfl
  · intro q hq
    cases hbr : respond backupRequest with
    | error e =>
      rw [runUpdatePhase, hbr] at hq
      simp only [List.mem_singleton] at hq
      subst hq
      intro hc
      exact absurd (congrArg DevRequest.endpoint hc) (by decide)
    | ok s =>
      rw [runUpdatePhase, hbr] at hq
      rw [if_pos rfl] at hq
      rw [List.mem_cons] at hq
      rcases hq with rfl | hq
      · intro hc
        exact absurd (congrArg DevRequest.endpoint hc) (by decide)
      · have hend := update_trace_endpoints respond active q hq
        intro hc
        subst hc
        exact absurd hend (by decide)

/-- Witness for C1: with a device rejecting the wipe command, the update
    phase issues only the backup and wipe requests and aborts. -/
theorem clear_then_provision_witness :
    runUpdatePhase respondClearFails false cards5 =
      ([backupRequest, clearAllCardsRequest], .error ()) :=
  (clear_then_provision respondClearFails cards5).2.1 (by decide) (by decide)

/-- C2 corrected: when tokenization yields zero 4-field lines the function
    writes no file; in every case it returns `None` (the implementation
    never returns the file path); when the pipeline completes on nonempty
    data it writes the report file — still returning `None`. -/
theorem generate_report_contract (raw : List Char) (cards : List CardRecord) :
    (tokenize raw = [] → generate_access_report raw cards = .ok ⟨none, none⟩)
    ∧ (∀ o, generate_access_report raw cards = .ok o → o.ret = none)
    ∧ (∀ evs, normalizeEvents (classify (tokenize raw)) = .ok evs → tokenize raw ≠ [] →
        generate_access_report raw cards =
          .ok ⟨some (sortReport (enrich (aggregate (joinRoster (dedupF evs) cards)) cards)),
               none⟩) := by
  refine ⟨?_, ?_, ?_⟩
  · intro h0
    rw [generate_access_report]
    simp only [h0]
    rfl
  · intro o ho
    rw [generate_access_report] at ho
    cases hemp : (tokenize raw).isEmpty with
    | true =>
      rw [hemp] at ho
      simp only [if_pos rfl] at ho
      cases ho
      rfl
    | false =>
      rw [hemp] at ho
      simp only [Bool.false_eq_true, if_false] at ho
      cases hnorm : normalizeEvents (classify (tokenize raw)) with
      | error e => rw [hnorm] at ho; cases ho
      | ok evs =>
        rw [hnorm] at ho
        cases ho
        rfl
  · intro evs hok hne
    have hne2 : (tokenize raw).isEmpty = false := by
      cases h0 : tokenize raw with
      | nil => exact absurd h0 hne
      | cons a l => rfl
    rw [generate_access_report]
    simp only [hne2, Bool.false_eq_true, if_false, hok]

/-- Witness for C2 (amended): empty input produces no file and returns
    `None`; the completed pipeline on real data also returns `None`. -/
theorem generate_report_contract_witness :
    generate_access_report [] [cardA] = .ok ⟨none, none⟩
    ∧ (ReportOutcome.mk (some [⟨123, 1, some cardA⟩]) none).ret = none :=
  ⟨(generate_report_contract [] [cardA]).1 (by decide),
   (generate_report_contract c5raw.toList [cardA]).2.1 ⟨some [⟨123, 1, some cardA⟩], none⟩
     (by decide)⟩

/-- Counterexample for C2 as stated: on `c5raw` the report file is written
    (the outcome's file component is some row list) yet the function
    returns `None`, not the file path — the claimed `-> filePath` half of
    the contract fails. -/
theorem generate_report_no_path_cex : ¬ returnsPathContract c5raw.toList [cardA] := by
  intro h
  have hres := h ⟨some [⟨123, 1, some cardA⟩], none⟩ (by decide) (by decide)
  simp at hres

/-- C6: every aggregated UniqueEntryDays value equals the number of
    distinct calendar dates among that rfid's events, and duplicating an
    existing (rfid, date) row leaves the aggregation unchanged — exact
    duplicates collapse before aggregation. -/
theorem unique_entry_days (evs : List (Nat × EventDate)) (cards : List CardRecord) :
    (∀ n c, (n, c) ∈ aggregate (joinRoster (dedupF evs) cards) → c = distinctDates evs n)
    ∧ ∀ e ∈ evs, aggregate (joinRoster (dedupF (evs ++ [e])) cards) =
        aggregate (joinRoster (dedupF evs) cards) := by
  constructor
  · intro n c h
    obtain ⟨hk, hc⟩ := mem_aggregate h
    rw [mem_groupKeys] at hk
    obtain ⟨⟨m, d, crec⟩, ht, hm⟩ := hk
    simp only at hm
    subst hm
    rw [mem_joinRoster] at ht
    rw [hc]
    exact nunique_eq_distinct ⟨crec, ht.2.1, ht.2.2.1, ht.2.2.2⟩
  · intro e he
    rw [dedupF_append_self evs e he]

/-- Witness for C6: rfid 123 on three distinct dates with two duplicated
    same-date rows aggregates to 3, and appending another duplicate changes
    nothing. -/
theorem unique_entry_days_witness :
    ((123, 3) ∈ aggregate (joinRoster (dedupF evs6) [cardA]))
    ∧ 3 = distinctDates evs6 123
    ∧ aggregate (joinRoster (dedupF (evs6 ++ [(123, ⟨2024, 1, 1⟩)])) [cardA]) =
        aggregate (joinRoster (dedupF evs6) [cardA]) :=
  ⟨by decide, (unique_entry_days evs6 [cardA]).1 123 3 (by decide),
   (unique_entry_days evs6 [cardA]).2 (123, ⟨2024, 1, 1⟩) (by decide)⟩

/-- C3 corrected: the report rows are sorted descending by UniqueEntryDays
    (`daysGE` between every earlier and every later row); the relative
    order of rows with equal UniqueEntryDays is implementation-defined by
    the unstable sort and in particular is not the original roster order.
    The rows are, as a multiset, exactly the enriched aggregation rows —
    both facts hold for every sorting algorithm, so they do not depend on
    the model's incidental tie order. -/
theorem report_sorted_desc (raw : List Char) (cards : List CardRecord)
    (o : ReportOutcome) (rows : List ReportRow) (evs : List (Nat × EventDate))
    (hnorm : normalizeEvents (classify (tokenize raw)) = .ok evs)
    (ho : generate_access_report raw cards = .ok o) (hf : o.file = some rows) :
    rows.Pairwise daysGE
    ∧ rows.Perm (enrich (aggregate (joinRoster (dedupF evs) cards)) cards) := by
  rw [generate_access_report] at ho
  cases hemp : (tokenize raw).isEmpty with
  | true =>
    rw [hemp] at ho
    simp only [if_pos rfl] at ho
    cases ho
    cases hf
  | false =>
    rw [hemp] at ho
    simp only [Bool.false_eq_true, if_false, hnorm] at ho
    cases ho
    have hr := Option.some.inj hf
    subst hr
    rw [sortReport]
    exact ⟨List.sorted_insertionSort daysGE _, List.perm_insertionSort daysGE _⟩

/-- Counterexample for C3 as stated: with the roster listing rfid 200
    before rfid 100 and both rfids tied at one entry day, the report lists
    the rfid-100 row first — ascending rfid order, not roster order. -/
theorem ties_not_roster_cex : ¬ tiesFollowRosterOrder c3raw.toList [card200, card100] := by
  intro h
  have hp := h ⟨some [⟨100, 1, some card100⟩, ⟨200, 1, some card200⟩], none⟩
      [⟨100, 1, some card100⟩, ⟨200, 1, some card200⟩] (by decide) rfl
  rw [List.pairwise_cons] at hp
  have h2 := hp.1 ⟨200, 1, some card200⟩ (List.mem_singleton.mpr rfl) rfl
  exact absurd h2 (by decide)

/-- Witness for C3 (amended): the concrete tied report is sorted descending
    and is a permutation of its enriched aggregation rows. -/
theorem report_sorted_desc_witness :
    List.Pairwise daysGE [(⟨100, 1, some card100⟩ : ReportRow), ⟨200, 1, some card200⟩]
    ∧ List.Perm [(⟨100, 1, some card100⟩ : ReportRow), ⟨200, 1, some card200⟩]
        (enrich
          (aggregate (joinRoster
            (dedupF [(100, ⟨2024, 2, 1⟩), (200, ⟨2024, 2, 1⟩)]) [card200, card100]))
          [card200, card100]) :=
  report_sorted_desc c3raw.toList [card200, card100]
    ⟨some [⟨100, 1, some card100⟩, ⟨200, 1, some card200⟩], none⟩
    [⟨100, 1, some card100⟩, ⟨200, 1, some card200⟩]
    [(100, ⟨2024, 2, 1⟩), (200, ⟨2024, 2, 1⟩)]
    (by decide) (by decide) rfl

end Perco
